import Mathlib

/-!
Verification development for the `fbx_direct` streaming FBX codec.

The Rust sources are shallowly embedded: byte streams are `List Nat` (each
element a byte value 0..255), machine integers are `Nat`/`Int` with explicit
`% 2 ^ w` where a cast truncates, fallible operations return `Except`/`Option`,
and the handful of places that call external crates (zlib deflate/inflate,
base64 decoding, IEEE-754 narrowing) are parameterised by an explicit function
argument, since no claim depends on the behaviour of those externals.
Rust `String`/`&str` values are represented by their UTF-8 byte lists.
-/

namespace FbxDirect

/-- Little-endian encoding of a natural number into `w` bytes
(the value is taken modulo `2 ^ (8 * w)` by the byte-by-byte division). -/
def natToLE : Nat → Nat → List Nat
  | 0, _ => []
  | w + 1, v => v % 256 :: natToLE w (v / 256)

/-- Little-endian decoding of a byte list into a natural number. -/
def leToNat : List Nat → Nat
  | [] => 0
  | b :: bs => b + 256 * leToNat bs

/-- Two's-complement reading of a `w`-byte unsigned value as a signed integer
(the semantics of byteorder's `read_i16`/`read_i32`/`read_i64`). -/
def toSigned (w : Nat) (n : Nat) : Int :=
  if n < 2 ^ (8 * w - 1) then (n : Int) else (n : Int) - 2 ^ (8 * w)

/-- Two's-complement little-endian encoding of a signed integer into `w` bytes
(the semantics of byteorder's `write_i16`/`write_i32`/`write_i64`). -/
def intToLE (w : Nat) (v : Int) : List Nat :=
  natToLE w (v % ((2 : Int) ^ (8 * w))).toNat

/-- Lowercase hex digit. -/
def hexDigit (n : Nat) : Char :=
  if n < 10 then Char.ofNat (48 + n) else Char.ofNat (87 + n)

/-- Hex digits of `n`, most significant first; `fuel` bounds the recursion. -/
def hexChars : Nat → Nat → List Char
  | 0, _ => []
  | f + 1, n => if n < 16 then [hexDigit n] else hexChars f (n / 16) ++ [hexDigit (n % 16)]

/-- Rust's alternate hex formatting `{:#x}`: `0x` followed by lowercase hex. -/
def hexFmt (n : Nat) : String :=
  "0x" ++ String.mk (hexChars (n + 1) n)

/-! ## Property model (`src/common.rs`)

`OwnedProperty` is the reader-side owned property union. The writer-side
borrowed `Property<'a>` has the same thirteen variants over views of the same
payloads and `borrow()` is variant-preserving, so a single Lean type stands
for both. `F32`/`F64` payloads are carried as their IEEE-754 bit patterns
(`Nat` below `2 ^ 32` / `2 ^ 64`): the codec reads and writes floats purely as
little-endian byte patterns, so this is exact for serialisation. -/

inductive OwnedProperty where
  | boolP (v : Bool)
  | i16P (v : Int)
  | i32P (v : Int)
  | i64P (v : Int)
  | f32P (bits : Nat)
  | f64P (bits : Nat)
  | vecBool (v : List Bool)
  | vecI32 (v : List Int)
  | vecI64 (v : List Int)
  | vecF32 (v : List Nat)
  | vecF64 (v : List Nat)
  | stringP (v : List Nat)
  | binaryP (v : List Nat)
  deriving DecidableEq, Repr

/-- Rust `OwnedProperty::get_i32`: Bool as 0/1, I16 widened, I32 as is, else `None`.
The i16→i32 widening `i32::from` is value-preserving, hence the identity on
the `Int` payload. -/
def OwnedProperty.get_i32 : OwnedProperty → Option Int
  | .boolP v => some (if v then 1 else 0)
  | .i16P v => some v
  | .i32P v => some v
  | _ => none

/-- Rust `OwnedProperty::get_f32`. The narrowing Rust cast `f64 as f32` on the
F64 payload is abstracted as the function argument `narrow` on bit patterns;
no claim depends on its value. -/
def OwnedProperty.get_f32 (narrow : Nat → Nat) : OwnedProperty → Option Nat
  | .f32P v => some v
  | .f64P v => some (narrow v)
  | _ => none

/-- Rust `OwnedProperty::get_binary`: a String payload is base64-decoded only when
`from_string` is set (`b64decode` abstracts `base64::decode(..).ok()`);
a Binary payload is returned as is; all other variants give `None`. -/
def OwnedProperty.get_binary (b64decode : List Nat → Option (List Nat))
    (from_string : Bool) : OwnedProperty → Option (List Nat)
  | .stringP v => if from_string then b64decode v else none
  | .binaryP v => some v
  | _ => none

/-! ## Shared format and event types (`src/common.rs`, `src/reader/mod.rs`) -/

/-- Rust `FbxFormatType`: Binary with version, or ASCII. -/
inductive FbxFormatType where
  | binary (version : Nat)
  | ascii
  deriving DecidableEq, Repr

/-- Rust `FbxEvent`. Node names and comment text are Rust strings, represented by
their UTF-8 bytes. The reader's events carry owned properties; the writer's
event type mirrors it with borrowed properties of the same variants, so one
type serves both sides. -/
inductive FbxEvent where
  | startFbx (fmt : FbxFormatType)
  | endFbx
  | startNode (name : List Nat) (properties : List OwnedProperty)
  | endNode
  | comment (text : List Nat)
  deriving DecidableEq, Repr

/-! ## Reader errors (`src/reader/error.rs`) -/

/-- Rust `reader::ErrorKind`. `Io` carries no payload we need; `Utf8Error` keeps no
cause in the model. -/
inductive ErrorKind where
  | utf8Error
  | invalidMagic
  | io
  | dataError (msg : String)
  | unexpectedValue (msg : String)
  | unexpectedEof
  | unimplemented (msg : String)
  deriving DecidableEq, Repr

/-- Rust `reader::Error`: position of the last successfully read byte plus a kind. -/
structure RError where
  pos : Nat
  kind : ErrorKind
  deriving DecidableEq, Repr

/-! ## Reader read primitives (`src/reader/parser/macros.rs`)

The byte source is a `List Nat` consumed from the front; `pos` mirrors the
parser's `common.pos` counter. A short read fails the underlying
`byteorder`/`io` call, surfacing as an `Io`-kind error at the current `pos`
(`try_with_pos!`). -/

/-- Rust `try_read_le_u8!`. -/
def readU8 (s : List Nat) (pos : Nat) : Except RError (Nat × List Nat × Nat) :=
  match s with
  | [] => .error ⟨pos, .io⟩
  | b :: rest => .ok (b, rest, pos + 1)

/-- Rust `try_read_le_u32!` and friends: read `w` little-endian bytes as a `Nat`. -/
def readLE (w : Nat) (s : List Nat) (pos : Nat) : Except RError (Nat × List Nat × Nat) :=
  if w ≤ s.length then .ok (leToNat (s.take w), s.drop w, pos + w)
  else .error ⟨pos, .io⟩

/-- Rust `try_read_le_i16!`/`i32!`/`i64!`: the unsigned read, reinterpreted as
two's complement. -/
def readLEInt (w : Nat) (s : List Nat) (pos : Nat) : Except RError (Int × List Nat × Nat) :=
  match readLE w s pos with
  | .error e => .error e
  | .ok (n, rest, pos2) => .ok (toSigned w n, rest, pos2)

/-- A byte of a UTF-8 continuation (`10xxxxxx`). -/
def utf8Cont (b : Nat) : Bool := 128 ≤ b && b ≤ 191

/-- UTF-8 validity of a byte list, per the standard table (what Rust's
`read_to_string` / `String::from_utf8` accept). -/
def utf8Valid : List Nat → Bool
  | [] => true
  | b :: rest =>
    if b ≤ 127 then utf8Valid rest
    else if 194 ≤ b && b ≤ 223 then
      match rest with
      | c1 :: rest2 => utf8Cont c1 && utf8Valid rest2
      | [] => false
    else if b = 224 then
      match rest with
      | c1 :: c2 :: rest2 => (160 ≤ c1 && c1 ≤ 191) && utf8Cont c2 && utf8Valid rest2
      | _ => false
    else if (225 ≤ b && b ≤ 236) || b = 238 || b = 239 then
      match rest with
      | c1 :: c2 :: rest2 => utf8Cont c1 && utf8Cont c2 && utf8Valid rest2
      | _ => false
    else if b = 237 then
      match rest with
      | c1 :: c2 :: rest2 => (128 ≤ c1 && c1 ≤ 159) && utf8Cont c2 && utf8Valid rest2
      | _ => false
    else if b = 240 then
      match rest with
      | c1 :: c2 :: c3 :: rest2 =>
        (144 ≤ c1 && c1 ≤ 191) && utf8Cont c2 && utf8Cont c3 && utf8Valid rest2
      | _ => false
    else if 241 ≤ b && b ≤ 243 then
      match rest with
      | c1 :: c2 :: c3 :: rest2 =>
        utf8Cont c1 && utf8Cont c2 && utf8Cont c3 && utf8Valid rest2
      | _ => false
    else if b = 244 then
      match rest with
      | c1 :: c2 :: c3 :: rest2 =>
        (128 ≤ c1 && c1 ≤ 143) && utf8Cont c2 && utf8Cont c3 && utf8Valid rest2
      | _ => false
    else false

/-- Rust `try_read_fixstr!`: take up to `len` bytes through `read_to_string`
(invalid UTF-8 is an `Io`-kind error, as `io::ErrorKind::InvalidData` maps
through `From<io::Error>`), then require exactly `len` bytes were available,
else `UnexpectedEof`. -/
def readFixStr (len : Nat) (s : List Nat) (pos : Nat) :
    Except RError (List Nat × List Nat × Nat) :=
  let bs := s.take len
  if utf8Valid bs = false then .error ⟨pos, .io⟩
  else if bs.length ≠ len then .error ⟨pos, .unexpectedEof⟩
  else .ok (bs, s.drop len, pos + len)

/-- Rust `try_read_exact!`: take up to `len` bytes via `read_to_end`, require
exactly `len`, else `UnexpectedEof`. -/
def readExact (len : Nat) (s : List Nat) (pos : Nat) :
    Except RError (List Nat × List Nat × Nat) :=
  if len ≤ s.length then .ok (s.take len, s.drop len, pos + len)
  else .error ⟨pos, .unexpectedEof⟩

/-! ## Binary FBX parser (`src/reader/parser/binary.rs`) -/

/-- Rust `BinaryParser`: declared FBX version and the stack of expected node end
offsets (`u32` values; head is the top of the Rust `Vec`). -/
structure BinaryParser where
  version : Nat
  end_offset_stack : List Nat
  deriving DecidableEq, Repr

/-- Rust `BinaryParser::new`. -/
def BinaryParser.new (version : Nat) : BinaryParser :=
  ⟨version, []⟩

/-- Rust `NodeRecordHeader`: four fields, read as `u32, u32, u32, u8` little-endian
regardless of the declared FBX version (the struct and its `read` do not
consult the version). -/
structure NodeRecordHeader where
  end_offset : Nat
  num_properties : Nat
  property_list_len : Nat
  name_len : Nat
  deriving DecidableEq, Repr

/-- Rust `NodeRecordHeader::read`: `u32`, `u32`, `u32`, `u8`, 13 bytes in all. -/
def NodeRecordHeader.read (s : List Nat) (pos : Nat) :
    Except RError (NodeRecordHeader × List Nat × Nat) :=
  match readLE 4 s pos with
  | .error e => .error e
  | .ok (end_offset, s1, pos1) =>
    match readLE 4 s1 pos1 with
    | .error e => .error e
    | .ok (num_properties, s2, pos2) =>
      match readLE 4 s2 pos2 with
      | .error e => .error e
      | .ok (property_list_len, s3, pos3) =>
        match readU8 s3 pos3 with
        | .error e => .error e
        | .ok (name_len, s4, pos4) =>
          .ok (⟨end_offset, num_properties, property_list_len, name_len⟩, s4, pos4)

/-- Rust `NodeRecordHeader::is_null_record`. -/
def NodeRecordHeader.is_null_record (h : NodeRecordHeader) : Bool :=
  h.end_offset == 0 && h.num_properties == 0 && h.property_list_len == 0 && h.name_len == 0

/-- Rust `PropertyArrayHeader`: `array_length`, `encoding`, `compressed_length`,
each a little-endian `u32`. -/
structure PropertyArrayHeader where
  array_length : Nat
  encoding : Nat
  compressed_length : Nat
  deriving DecidableEq, Repr

/-- Rust `PropertyArrayHeader::read`. -/
def PropertyArrayHeader.read (s : List Nat) (pos : Nat) :
    Except RError (PropertyArrayHeader × List Nat × Nat) :=
  match readLE 4 s pos with
  | .error e => .error e
  | .ok (array_length, s1, pos1) =>
    match readLE 4 s1 pos1 with
    | .error e => .error e
    | .ok (encoding, s2, pos2) =>
      match readLE 4 s2 pos2 with
      | .error e => .error e
      | .ok (compressed_length, s3, pos3) =>
        .ok (⟨array_length, encoding, compressed_length⟩, s3, pos3)

/-- One typed element read of
`read_property_value_array_from_plain_stream`'s loop body: element width and
decoding per type code (`f`/`d`/`l`/`i`/`b`). -/
def readArrayElems (typeCode : Nat) (n : Nat) (s : List Nat) (absPos : Nat) :
    Except RError (OwnedProperty × List Nat × Nat) :=
  match typeCode with
  | 102 =>  -- f: f32 elements, 4 bytes each
    (match goNat 4 n s with
     | none => .error ⟨absPos, .io⟩
     | some (vs, rest) => .ok (.vecF32 vs, rest, n * 4))
  | 100 =>  -- d: f64 elements, 8 bytes each
    (match goNat 8 n s with
     | none => .error ⟨absPos, .io⟩
     | some (vs, rest) => .ok (.vecF64 vs, rest, n * 8))
  | 108 =>  -- l: i64 elements
    (match goNat 8 n s with
     | none => .error ⟨absPos, .io⟩
     | some (vs, rest) => .ok (.vecI64 (vs.map (toSigned 8)), rest, n * 8))
  | 105 =>  -- i: i32 elements
    (match goNat 4 n s with
     | none => .error ⟨absPos, .io⟩
     | some (vs, rest) => .ok (.vecI32 (vs.map (toSigned 4)), rest, n * 4))
  | 98 =>  -- b: one byte per bool, LSB decides
    (match goNat 1 n s with
     | none => .error ⟨absPos, .io⟩
     | some (vs, rest) => .ok (.vecBool (vs.map (fun v => v % 2 == 1)), rest, n * 1))
  | _ => .error ⟨absPos, .io⟩  -- unreachable: callers pass only f d l i b
where
  /-- Read `n` consecutive `w`-byte little-endian values. -/
  goNat (w : Nat) : Nat → List Nat → Option (List Nat × List Nat)
    | 0, s => some ([], s)
    | k + 1, s =>
      if w ≤ s.length then
        match goNat w k (s.drop w) with
        | none => none
        | some (vs, rest) => some (leToNat (s.take w) :: vs, rest)
      else none

/-- Rust `BinaryParser::read_property_value_array`: dispatch on the array
`encoding`. Encoding 0 parses the elements in place and advances `pos` by
their byte total; encoding 1 inflates the next `compressed_length` bytes
through zlib (abstracted by `inflate`) and advances `pos` by
`compressed_length`; anything else is `UnexpectedValue`. -/
def readPropertyValueArray (inflate : List Nat → List Nat) (typeCode : Nat)
    (hdr : PropertyArrayHeader) (s : List Nat) (pos : Nat) :
    Except RError (OwnedProperty × List Nat × Nat) :=
  match hdr.encoding with
  | 0 =>
    (match readArrayElems typeCode hdr.array_length s pos with
     | .error e => .error e
     | .ok (val, rest, byteSize) => .ok (val, rest, pos + byteSize))
  | 1 =>
    (match readArrayElems typeCode hdr.array_length
        (inflate (s.take hdr.compressed_length)) pos with
     | .error e => .error e
     | .ok (val, _, _) => .ok (val, s.drop hdr.compressed_length, pos + hdr.compressed_length))
  | e => .error ⟨pos, .unexpectedValue ("Unsupported property array encoding, got " ++ hexFmt e)⟩

/-- Rust `BinaryParser::read_property`: one type-code byte (values above `0x80` are
`DataError` at `pos - 1`), then the payload per code; unknown codes are
`UnexpectedValue`. -/
def readProperty (inflate : List Nat → List Nat) (s : List Nat) (pos : Nat) :
    Except RError (OwnedProperty × List Nat × Nat) :=
  match readU8 s pos with
  | .error e => .error e
  | .ok (type_code, s1, pos1) =>
    if 128 < type_code then
      .error ⟨pos1 - 1, .dataError ("Expected property type code (ASCII) but got "
        ++ hexFmt type_code)⟩
    else
      match type_code with
      | 67 =>  -- C: bool, one byte, LSB decides (non-T/Y values only warn)
        (match readU8 s1 pos1 with
         | .error e => .error e
         | .ok (val, s2, pos2) => .ok (.boolP (val % 2 == 1), s2, pos2))
      | 89 =>  -- Y: i16
        (match readLEInt 2 s1 pos1 with
         | .error e => .error e
         | .ok (v, s2, pos2) => .ok (.i16P v, s2, pos2))
      | 73 =>  -- I: i32
        (match readLEInt 4 s1 pos1 with
         | .error e => .error e
         | .ok (v, s2, pos2) => .ok (.i32P v, s2, pos2))
      | 70 =>  -- F: f32 bit pattern
        (match readLE 4 s1 pos1 with
         | .error e => .error e
         | .ok (v, s2, pos2) => .ok (.f32P v, s2, pos2))
      | 68 =>  -- D: f64 bit pattern
        (match readLE 8 s1 pos1 with
         | .error e => .error e
         | .ok (v, s2, pos2) => .ok (.f64P v, s2, pos2))
      | 76 =>  -- L: i64
        (match readLEInt 8 s1 pos1 with
         | .error e => .error e
         | .ok (v, s2, pos2) => .ok (.i64P v, s2, pos2))
      | 102 | 100 | 108 | 105 | 98 =>  -- f d l i b: array property
        (match PropertyArrayHeader.read s1 pos1 with
         | .error e => .error e
         | .ok (hdr, s2, pos2) => readPropertyValueArray inflate type_code hdr s2 pos2)
      | 83 =>  -- S: u32 length + UTF-8 bytes
        (match readLE 4 s1 pos1 with
         | .error e => .error e
         | .ok (len, s2, pos2) =>
           match readFixStr len s2 pos2 with
           | .error e => .error e
           | .ok (str, s3, pos3) => .ok (.stringP str, s3, pos3))
      | 82 =>  -- R: u32 length + raw bytes
        (match readLE 4 s1 pos1 with
         | .error e => .error e
         | .ok (len, s2, pos2) =>
           match readExact len s2 pos2 with
           | .error e => .error e
           | .ok (bytes, s3, pos3) => .ok (.binaryP bytes, s3, pos3))
      | _ =>
        .error ⟨pos1, .unexpectedValue ("Unsupported type code appears in node property: type_code="
          ++ String.mk [Char.ofNat type_code] ++ "(" ++ hexFmt type_code ++ ")")⟩

/-- The property loop of `BinaryParser::next`: read `n` properties in order. -/
def readProperties (inflate : List Nat → List Nat) :
    Nat → List Nat → Nat → Except RError (List OwnedProperty × List Nat × Nat)
  | 0, s, pos => .ok ([], s, pos)
  | n + 1, s, pos =>
    match readProperty inflate s pos with
    | .error e => .error e
    | .ok (p, s1, pos1) =>
      match readProperties inflate n s1 pos1 with
      | .error e => .error e
      | .ok (ps, s2, pos2) => .ok (p :: ps, s2, pos2)

/-- Rust `BinaryParser::next`: pop an `EndNode` without reading when the stacked
end offset equals `pos`; otherwise read a node record header; a null record
closes a node (checking the expected end offset) or, with an empty stack,
ends the FBX without parsing the footer; any other header starts a node. -/
def BinaryParser.next (inflate : List Nat → List Nat) (p : BinaryParser)
    (s : List Nat) (pos : Nat) :
    Except RError (FbxEvent × BinaryParser × List Nat × Nat) :=
  if p.end_offset_stack.head? = some pos then
    .ok (.endNode, ⟨p.version, p.end_offset_stack.tail⟩, s, pos)
  else
    match NodeRecordHeader.read s pos with
    | .error e => .error e
    | .ok (hdr, s1, pos1) =>
      if hdr.is_null_record then
        match p.end_offset_stack with
        | expected :: stackRest =>
          if pos1 = expected then
            .ok (.endNode, ⟨p.version, stackRest⟩, s1, pos1)
          else
            .error ⟨pos1, .dataError ("Node does not end at expected position (expected "
              ++ toString expected ++ ", now at " ++ toString pos1 ++ ")")⟩
        | [] => .ok (.endFbx, p, s1, pos1)
      else
        match readFixStr hdr.name_len s1 pos1 with
        | .error e => .error e
        | .ok (name, s2, pos2) =>
          match readProperties inflate hdr.num_properties s2 pos2 with
          | .error e => .error e
          | .ok (props, s3, pos3) =>
            .ok (.startNode name props,
              ⟨p.version, hdr.end_offset :: p.end_offset_stack⟩, s3, pos3)

/-! ## Top-level pull parser (`src/reader/parser/mod.rs`, `ascii.rs`) -/

instance instDecEqExcept {ε α : Type} [DecidableEq ε] [DecidableEq α] :
    DecidableEq (Except ε α) := fun a b =>
  match a, b with
  | .error x, .error y =>
    if h : x = y then .isTrue (by rw [h]) else .isFalse (by simp [h])
  | .ok x, .ok y =>
    if h : x = y then .isTrue (by rw [h]) else .isFalse (by simp [h])
  | .error _, .ok _ => .isFalse (by simp)
  | .ok _, .error _ => .isFalse (by simp)

/-- Rust `ParserState`: magic stage, binary sub-parser, or ASCII sub-parser (whose
only state is its line-lookahead buffer). -/
inductive ParserState where
  | magic
  | binaryState (p : BinaryParser)
  | asciiState (buffer : List Nat)
  deriving DecidableEq, Repr

/-- Rust `ParserConfig`. -/
structure ParserConfig where
  ignore_comments : Bool
  deriving DecidableEq, Repr

/-- Rust `CommonState`: byte position and the latched terminal result. -/
structure CommonState where
  pos : Nat
  final_result : Option (Except RError FbxEvent)
  deriving DecidableEq, Repr

/-- Rust `Parser`. -/
structure Parser where
  config : ParserConfig
  common : CommonState
  state : ParserState
  deriving DecidableEq, Repr

/-- Rust `Parser::new`. -/
def Parser.new (config : ParserConfig) : Parser :=
  ⟨config, ⟨0, none⟩, .magic⟩

/-- Outcome of one sub-parser step: the Rust code can also panic (an
out-of-bounds index in `magic_next`), which no `Result` captures. -/
inductive SubOut where
  | panicked
  | stepped (r : Except RError FbxEvent) (st : ParserState) (pos : Nat) (s : List Nat)
  deriving DecidableEq, Repr

/-- The first-line loop of `Parser::magic_next`: bytes up to the first NUL or
line feed. Returns the collected line, the terminator, the remaining stream
and the advanced position; EOF inside the loop is the underlying read's
`Io`-kind error. -/
def readFirstLine : List Nat → Nat → Except RError (List Nat × Nat × List Nat × Nat)
  | [], pos => .error ⟨pos, .io⟩
  | b :: rest, pos =>
    if b = 0 || b = 10 then .ok ([], b, rest, pos + 1)
    else
      match readFirstLine rest (pos + 1) with
      | .error e => .error e
      | .ok (line, term, rest2, pos2) => .ok (b :: line, term, rest2, pos2)

/-- The 20 magic bytes `"Kaydara FBX Binary  "`. -/
def magicBytes : List Nat :=
  [75, 97, 121, 100, 97, 114, 97, 32, 70, 66, 88, 32, 66, 105, 110, 97, 114, 121, 32, 32]

/-- Rust `Parser::magic_next`. A NUL-terminated magic line leads to the binary
parser (the `0x1A 0x00` trailer only warns when different); any other
NUL-terminated line is `InvalidMagic` at the current position. A line-feed
terminated line switches to ASCII — indexing `first_line_bytes[0]` first,
which panics on an empty line; a leading `;` discards the line, otherwise
it becomes the ASCII lookahead buffer (after UTF-8 validation) plus `\n`. -/
def magicNext (s : List Nat) (pos : Nat) : SubOut :=
  match readFirstLine s pos with
  | .error e => .stepped (.error e) .magic e.pos []
  | .ok (first_line_bytes, magic_end_byte, rest, pos1) =>
    if magic_end_byte = 0 then
      if first_line_bytes = magicBytes then
        match readExact 2 rest pos1 with
        | .error e => .stepped (.error e) .magic pos1 rest
        | .ok (_, rest2, pos2) =>
          match readLE 4 rest2 pos2 with
          | .error e => .stepped (.error e) .magic pos2 rest2
          | .ok (version, rest3, pos3) =>
            .stepped (.ok (.startFbx (.binary version)))
              (.binaryState (BinaryParser.new version)) pos3 rest3
      else
        .stepped (.error ⟨pos1, .invalidMagic⟩) .magic pos1 rest
    else
      match first_line_bytes with
      | [] => .panicked
      | b0 :: _ =>
        if b0 ≠ 59 then
          if utf8Valid first_line_bytes then
            .stepped (.ok (.startFbx .ascii)) (.asciiState (first_line_bytes ++ [10])) pos1 rest
          else
            .stepped (.error ⟨pos1, .utf8Error⟩) .magic pos1 rest
        else
          .stepped (.ok (.startFbx .ascii)) (.asciiState []) pos1 rest

/-- Rust `AsciiParser::next`: always `Unimplemented`. -/
def asciiNext (buffer : List Nat) (s : List Nat) (pos : Nat) : SubOut :=
  .stepped (.error ⟨pos, .unimplemented "Parser for ASCII FBX format is not implemented yet"⟩)
    (.asciiState buffer) pos s

/-- One iteration of the dispatch inside `Parser::next`'s loop. -/
def Parser.subStep (inflate : List Nat → List Nat) (p : Parser) (s : List Nat) : SubOut :=
  match p.state with
  | .magic => magicNext s p.common.pos
  | .binaryState bp =>
    (match BinaryParser.next inflate bp s p.common.pos with
     | .error e => .stepped (.error e) (.binaryState bp) e.pos s
     | .ok (ev, bp2, s2, pos2) => .stepped (.ok ev) (.binaryState bp2) pos2 s2)
  | .asciiState buffer => asciiNext buffer s p.common.pos

/-- Outcome of `Parser::next` in the model: the comment-skipping loop is given
fuel (no sub-parser of this crate ever produces a `Comment`, so any positive
fuel suffices). -/
inductive NextOut where
  | panicked
  | outOfFuel
  | done (r : Except RError FbxEvent) (p : Parser) (s : List Nat)
  deriving DecidableEq, Repr

/-- The `loop` of `Parser::next`: repeat the sub-step while `ignore_comments`
is set and the result is a comment. The sub-parsers never touch
`final_result`. -/
def Parser.loopNext (inflate : List Nat → List Nat) :
    Nat → Parser → List Nat → NextOut
  | 0, _, _ => .outOfFuel
  | fuel + 1, p, s =>
    match p.subStep inflate s with
    | .panicked => .panicked
    | .stepped r st pos1 s1 =>
      let p1 : Parser := ⟨p.config, ⟨pos1, p.common.final_result⟩, st⟩
      match r, p.config.ignore_comments with
      | .ok (.comment _), true => Parser.loopNext inflate fuel p1 s1
      | r, _ => .done r p1 s1

/-- Latch test of `Parser::next`: `Ok(EndFbx)` and every `Err` are terminal. -/
def isTerminal : Except RError FbxEvent → Bool
  | .ok .endFbx => true
  | .error _ => true
  | _ => false

/-- Rust `Parser::next`: return the latched result if present, otherwise run the
loop and latch a terminal result. -/
def Parser.next (inflate : List Nat → List Nat) (fuel : Nat) (p : Parser)
    (s : List Nat) : NextOut :=
  match p.common.final_result with
  | some r => .done r p s
  | none =>
    match Parser.loopNext inflate fuel p s with
    | .done r p1 s1 =>
      if isTerminal r then
        .done r ⟨p1.config, ⟨p1.common.pos, some r⟩, p1.state⟩ s1
      else
        .done r p1 s1
    | out => out

/-- The `Events` iterator: pull until the first terminal result (or until the
event budget `n` runs out; a panic or loop fuel exhaustion ends the list). -/
def readAll (inflate : List Nat → List Nat) :
    Nat → Parser → List Nat → List (Except RError FbxEvent)
  | 0, _, _ => []
  | n + 1, p, s =>
    match Parser.next inflate 2 p s with
    | .done r p1 s1 => if isTerminal r then [r] else r :: readAll inflate n p1 s1
    | _ => []

/-! ## Writer errors (`src/writer/error.rs`, with the variants the emitter
code constructs) -/

/-- Rust `writer::Error`. -/
inductive WError where
  | ioW
  | extraEndNode
  | fbxNotStarted
  | fbxAlreadyStarted
  | unsupportedFbxVersion (v : Nat)
  | unwritableEvent
  | unimplementedW (msg : String)
  | invalidOption (msg : String)
  | dataTooLarge (msg : String)
  deriving DecidableEq, Repr

/-! ## Seekable byte sink

The writer requires `Write + Seek`; tests use `Cursor<Vec<u8>>`, whose
semantics this mirrors: writing at `pos` overwrites in place, extends at the
end, and zero-fills any gap after a seek past the end. -/

/-- Overwrite `bs` into `data` at offset `pos`, zero-filling a gap and
extending as needed. -/
def listOverwrite (data : List Nat) (pos : Nat) (bs : List Nat) : List Nat :=
  data.take pos ++ List.replicate (pos - data.length) 0 ++ bs ++ data.drop (pos + bs.length)

/-- A seekable sink: contents plus current offset. -/
structure Sink where
  data : List Nat
  pos : Nat
  deriving DecidableEq, Repr

/-- Rust `sink.write_all`/`write_uN` (all writes succeed in the model: the only
sink used is in-memory). -/
def Sink.write (sk : Sink) (bs : List Nat) : Sink :=
  ⟨listOverwrite sk.data sk.pos bs, sk.pos + bs.length⟩

/-- Rust `sink.seek(SeekFrom::Start(p))`; `seek(SeekFrom::Current(0))` is `sk.pos`. -/
def Sink.seekTo (sk : Sink) (p : Nat) : Sink :=
  ⟨sk.data, p⟩

/-- The empty in-memory sink. -/
def Sink.empty : Sink := ⟨[], 0⟩

/-! ## Binary FBX emitter (`src/writer/emitter/binary.rs`) -/

/-- Rust `BinaryEmitter`. `pos` exists in the source but is never read or updated
after construction; the stacks' heads are the Rust `Vec`s' tops. -/
structure BinaryEmitter where
  version : Nat
  pos : Nat
  end_offset_pos_stack : List Nat
  null_record_necessities : List Bool
  deriving DecidableEq, Repr

/-- Rust `BinaryEmitter::new`. -/
def BinaryEmitter.new (version : Nat) : BinaryEmitter :=
  ⟨version, 0, [], []⟩

/-- Rust `if let Some(top) = stack.last_mut() { *top = true }`. -/
def mapHeadTrue : List Bool → List Bool
  | [] => []
  | _ :: rest => true :: rest

def u32Max : Nat := 2 ^ 32 - 1

def u64Max : Nat := 2 ^ 64 - 1

/-- Rust `BinaryEmitter::emit_start_fbx`: only 7000-series versions are accepted;
magic, `0x1A 0x00`, version. -/
def BinaryEmitter.emit_start_fbx (be : BinaryEmitter) (sink : Sink) (ver : Nat) :
    Except WError Unit × BinaryEmitter × Sink :=
  if ver < 7000 || 8000 ≤ ver then
    (.error (.unsupportedFbxVersion ver), be, sink)
  else
    let sink := sink.write (magicBytes ++ [0])
    let sink := sink.write [26, 0]
    let sink := sink.write (natToLE 4 ver)
    (.ok (), be, sink)

/-- The `read_array_value!` macro of `emit_start_node`: type code, array
length, encoding 1, a placeholder for the compressed byte count, the
zlib-deflated element bytes (`deflate` abstracts the encoder), then the
seek-back fixup of the count. Returns the payload byte tally `12 + byte_size`
(the type code byte is added by the caller). -/
def emitArrayProp (deflate : List Nat → List Nat) (sink : Sink) (code : Nat)
    (len : Nat) (elemBytes : List Nat) : Sink × Nat :=
  let sink := sink.write [code]
  let sink := sink.write (natToLE 4 len)
  let sink := sink.write (natToLE 4 1)
  let byte_size_pos := sink.pos
  let sink := sink.write (natToLE 4 0)
  let vec_start_pos := sink.pos
  let sink := sink.write (deflate elemBytes)
  let last_pos := sink.pos
  let byte_size := last_pos - vec_start_pos
  let sink := ((sink.seekTo byte_size_pos).write (natToLE 4 byte_size)).seekTo last_pos
  (sink, 12 + byte_size)

/-- One arm of the property loop in `emit_start_node`: writes the type code
and payload, returns the payload byte count (the caller adds 1 for the code). -/
def emitProperty (deflate : List Nat → List Nat) (sink : Sink) :
    OwnedProperty → Sink × Nat
  | .boolP v => (sink.write [67, if v then 89 else 84], 1)
  | .i16P v => (sink.write (89 :: intToLE 2 v), 2)
  | .i32P v => (sink.write (73 :: intToLE 4 v), 4)
  | .i64P v => (sink.write (76 :: intToLE 8 v), 8)
  | .f32P v => (sink.write (70 :: natToLE 4 v), 4)
  | .f64P v => (sink.write (68 :: natToLE 8 v), 8)
  | .vecBool vec =>
    -- the source writes the `b` code and one raw `Y`/`T` byte per element,
    -- with no 12-byte array header
    (sink.write (98 :: vec.map (fun v => if v then 89 else 84)), vec.length)
  | .vecI32 vec => emitArrayProp deflate sink 105 vec.length ((vec.map (intToLE 4)).flatten)
  | .vecI64 vec => emitArrayProp deflate sink 108 vec.length ((vec.map (intToLE 8)).flatten)
  | .vecF32 vec => emitArrayProp deflate sink 102 vec.length ((vec.map (natToLE 4)).flatten)
  | .vecF64 vec => emitArrayProp deflate sink 100 vec.length ((vec.map (natToLE 8)).flatten)
  | .stringP s => (sink.write ((83 :: natToLE 4 s.length) ++ s), 4 + s.length)
  | .binaryP b => (sink.write ((82 :: natToLE 4 b.length) ++ b), 4 + b.length)

/-- The property loop: accumulated sink and `props_byte_size` tally
(`1 +` payload per property, for the type-code byte). -/
def emitProperties (deflate : List Nat → List Nat) (sink : Sink) :
    List OwnedProperty → Sink × Nat
  | [] => (sink, 0)
  | p :: ps =>
    let (sink1, sz) := emitProperty deflate sink p
    let (sink2, rest) := emitProperties deflate sink1 ps
    (sink2, (1 + sz) + rest)

/-- Rust `BinaryEmitter::emit_start_node`: mark the parent as needing a null
record, push this node's flag (`properties.is_empty()`), write the header
with placeholder `end_offset` (`0xefbeadde`, doubled at/after 7500) and
placeholder `property_list_len`, the name length byte (`as u8` truncates),
the name, then the properties, and fix up `property_list_len` when the
property list is non-empty. -/
def BinaryEmitter.emit_start_node (deflate : List Nat → List Nat)
    (be : BinaryEmitter) (sink : Sink) (name : List Nat)
    (properties : List OwnedProperty) : Except WError Unit × BinaryEmitter × Sink :=
  let flags := properties.isEmpty :: mapHeadTrue be.null_record_necessities
  if be.version < 7500 then
    let be1 : BinaryEmitter :=
      { be with end_offset_pos_stack := sink.pos :: be.end_offset_pos_stack,
                null_record_necessities := flags }
    let sink := sink.write (natToLE 4 0xefbeadde)
    if properties.length > u32Max then
      (.error (.dataTooLarge ("Number of node properties (" ++ toString properties.length
        ++ ") is too large for FBX " ++ toString be.version)), be1, sink)
    else
      let sink := sink.write (natToLE 4 properties.length)
      let prop_list_len_offset := sink.pos
      let sink := sink.write (natToLE 4 0)
      let sink := sink.write [name.length % 256]
      let sink := sink.write name
      if properties.isEmpty then (.ok (), be1, sink)
      else
        let (sink, props_byte_size) := emitProperties deflate sink properties
        let last_pos := sink.pos
        let sink := sink.seekTo prop_list_len_offset
        if props_byte_size > u32Max then
          (.error (.dataTooLarge ("Properties size (" ++ toString props_byte_size
            ++ " bytes) is too large for FBX " ++ toString be.version)), be1, sink)
        else
          ((.ok ()), be1, (sink.write (natToLE 4 props_byte_size)).seekTo last_pos)
  else
    let be1 : BinaryEmitter :=
      { be with end_offset_pos_stack := sink.pos :: be.end_offset_pos_stack,
                null_record_necessities := flags }
    let sink := sink.write (natToLE 8 0xefbeaddeefbeadde)
    if properties.length > u64Max then
      (.error (.dataTooLarge ("Number of node properties (" ++ toString properties.length
        ++ ") is too large for FBX " ++ toString be.version)), be1, sink)
    else
      let sink := sink.write (natToLE 8 properties.length)
      let prop_list_len_offset := sink.pos
      let sink := sink.write (natToLE 8 0)
      let sink := sink.write [name.length % 256]
      let sink := sink.write name
      if properties.isEmpty then (.ok (), be1, sink)
      else
        let (sink, props_byte_size) := emitProperties deflate sink properties
        let last_pos := sink.pos
        let sink := sink.seekTo prop_list_len_offset
        let sink := (sink.write (natToLE 8 props_byte_size)).seekTo last_pos
        (.ok (), be1, sink)

/-- Outcome of `emit_end_node`, whose `.pop().unwrap()` on the placeholder
stack can panic. -/
inductive BEOut where
  | panicked
  | out (r : Except WError Unit) (be : BinaryEmitter) (sink : Sink)
  deriving DecidableEq, Repr

/-- Rust `BinaryEmitter::emit_end_node`: pop the null-record flag (`ExtraEndNode`
when the stack is empty), write the 13- or 25-byte zero-filled null record
when the flag is set, then fix up this node's `end_offset` with the current
end position (rejected above `u32::MAX` before 7500). -/
def BinaryEmitter.emit_end_node (be : BinaryEmitter) (sink : Sink) : BEOut :=
  match be.null_record_necessities with
  | [] => .out (.error .extraEndNode) be sink
  | required :: restFlags =>
    let sink :=
      if required then
        sink.write (if be.version < 7500 then List.replicate 13 0 else List.replicate 25 0)
      else sink
    let be1 : BinaryEmitter := { be with null_record_necessities := restFlags }
    let last_pos := sink.pos
    match be1.end_offset_pos_stack with
    | [] => .panicked
    | p :: restOffs =>
      let be2 : BinaryEmitter := { be1 with end_offset_pos_stack := restOffs }
      let sink := sink.seekTo p
      if be2.version < 7500 then
        if last_pos > u32Max then
          .out (.error (.dataTooLarge ("File size (currently " ++ toString last_pos
            ++ " bytes) is too large for FBX " ++ toString be2.version))) be2 sink
        else
          .out (.ok ()) be2 ((sink.write (natToLE 4 last_pos)).seekTo last_pos)
      else
        .out (.ok ()) be2 ((sink.write (natToLE 8 last_pos)).seekTo last_pos)

/-- Rust `BinaryEmitter::emit_end_fbx`: the implicit root's null record, the
16-byte unknown footer magic, zero padding to a multiple of 16, four zero
bytes, the version, 120 zero bytes, and the fixed trailing magic. -/
def BinaryEmitter.emit_end_fbx (be : BinaryEmitter) (sink : Sink) :
    Except WError Unit × BinaryEmitter × Sink :=
  let sink := sink.write (if be.version < 7500 then List.replicate 13 0 else List.replicate 25 0)
  let sink := sink.write [0xfa, 0xbc, 0xaf, 0x0f, 0xdf, 0xcf, 0xdf, 0x6f,
                          0xbf, 0x7f, 0xff, 0x8f, 0x1f, 0xff, 0x2f, 0x7f]
  let current_off := sink.pos % 16
  let sink := if current_off ≠ 0 then sink.write (List.replicate (16 - current_off) 0) else sink
  let sink := sink.write (List.replicate 4 0)
  let sink := sink.write (natToLE 4 be.version)
  let sink := sink.write (List.replicate 120 0)
  let sink := sink.write [0xf8, 0x5a, 0x8c, 0x6a, 0xde, 0xf5, 0xd9, 0x7e,
                          0xec, 0xe9, 0x0c, 0xe3, 0x75, 0x8f, 0x29, 0x0b]
  (.ok (), be, sink)

/-! ## Top-level emitter (`src/writer/emitter/mod.rs`)

The ASCII sub-emitter (`ascii.rs`) is text formatting the claims never touch;
its five operations are passed in as an `AsciiImpl` record over an abstract
state type, so every theorem about the dispatch-and-latch logic holds for any
ASCII sub-emitter behaviour. -/

/-- Rust `EmitterConfig`. -/
structure EmitterConfig where
  ignore_minor_errors : Bool
  fbx_version : Option Nat
  deriving DecidableEq, Repr

/-- Rust `EmitterConfig::new`. -/
def EmitterConfig.new : EmitterConfig := ⟨true, none⟩

/-- The ASCII sub-emitter's interface (`AsciiEmitter` with state `σ`). -/
structure AsciiImpl (σ : Type) where
  newState : σ
  emit_start_fbx : σ → Sink → Nat → Except WError Unit × σ × Sink
  emit_end_fbx : σ → Sink → Except WError Unit × σ × Sink
  emit_start_node : σ → Sink → List Nat → List OwnedProperty → Except WError Unit × σ × Sink
  emit_end_node : σ → Sink → Except WError Unit × σ × Sink
  emit_comment : σ → Sink → List Nat → Except WError Unit × σ × Sink

/-- Rust `EmitterState`. -/
inductive EmitterState (σ : Type) where
  | initial
  | binaryE (be : BinaryEmitter)
  | asciiE (ae : σ)
  deriving DecidableEq, Repr

/-- Rust `Emitter` (its `CommonState` holds only `final_result`, inlined here). -/
structure Emitter (σ : Type) where
  config : EmitterConfig
  final_result : Option (Except WError Unit)
  state : EmitterState σ
  deriving DecidableEq, Repr

/-- Rust `Emitter::new`. -/
def Emitter.new {σ : Type} (config : EmitterConfig) : Emitter σ :=
  ⟨config, none, .initial⟩

/-- Outcome of `Emitter::write` (`emit_end_node` can panic). -/
inductive WriteOut (σ : Type) where
  | panicked
  | done (r : Except WError Unit) (em : Emitter σ) (sink : Sink)
  deriving DecidableEq, Repr

/-- The tail of `Emitter::write`: store an `Err` result in `final_result`
(the latch); `Ok` leaves it unset. Applies to every path except the
early-`return` version-mismatch check. -/
def Emitter.finish {σ : Type} (config : EmitterConfig) (r : Except WError Unit)
    (st : EmitterState σ) (sink : Sink) : WriteOut σ :=
  match r with
  | .error e => .done (.error e) ⟨config, some (.error e), st⟩ sink
  | .ok () => .done (.ok ()) ⟨config, none, st⟩ sink

/-- The Initial-state `StartFbx(Binary)` arm after the config check:
construct a `BinaryEmitter`, run `emit_start_fbx`, and set the state to
Binary whatever the result. -/
def Emitter.startBinary {σ : Type} (config : EmitterConfig) (sink : Sink)
    (ver : Nat) : WriteOut σ :=
  match BinaryEmitter.emit_start_fbx (BinaryEmitter.new ver) sink ver with
  | (r, be, sink2) => Emitter.finish config r (.binaryE be) sink2

/-- Rust `Emitter::write`: repeat a latched result; dispatch on state and event;
latch errors — except that a configured-version mismatch on
`StartFbx(Binary)` in the Initial state returns its `InvalidOption` error
early, bypassing both the state change and the latch. -/
def Emitter.write {σ : Type} (deflate : List Nat → List Nat)
    (aImpl : AsciiImpl σ) (em : Emitter σ) (sink : Sink) (event : FbxEvent) :
    WriteOut σ :=
  match em.final_result with
  | some r => .done r em sink
  | none =>
    match em.state, event with
    | .initial, .startFbx (.binary ver) =>
      (match em.config.fbx_version with
       | some config_fbx_ver =>
         if ver ≠ config_fbx_ver then
           .done (.error (.invalidOption ("FBX version " ++ toString config_fbx_ver
             ++ " specified by emitter config, but " ++ toString ver
             ++ " is given for `StartFbx` event"))) em sink
         else Emitter.startBinary em.config sink ver
       | none => Emitter.startBinary em.config sink ver)
    | .initial, .startFbx .ascii =>
      (match em.config.fbx_version with
       | some ver =>
         (match aImpl.emit_start_fbx aImpl.newState sink ver with
          | (r, ae, sink2) => Emitter.finish em.config r (.asciiE ae) sink2)
       | none =>
         Emitter.finish em.config
           (.error (.invalidOption "Attempt to export ASCII FBX but version is not specified"))
           (.asciiE aImpl.newState) sink)
    | .initial, _ => Emitter.finish em.config (.error .fbxNotStarted) .initial sink
    | .binaryE be, .startFbx _ =>
      Emitter.finish em.config (.error .fbxAlreadyStarted) (.binaryE be) sink
    | .binaryE be, .endFbx =>
      (match be.emit_end_fbx sink with
       | (r, be2, sink2) => Emitter.finish em.config r (.binaryE be2) sink2)
    | .binaryE be, .startNode name properties =>
      (match be.emit_start_node deflate sink name properties with
       | (r, be2, sink2) => Emitter.finish em.config r (.binaryE be2) sink2)
    | .binaryE be, .endNode =>
      (match be.emit_end_node sink with
       | .panicked => .panicked
       | .out r be2 sink2 => Emitter.finish em.config r (.binaryE be2) sink2)
    | .binaryE be, .comment _ =>
      if em.config.ignore_minor_errors then
        Emitter.finish em.config (.ok ()) (.binaryE be) sink
      else
        Emitter.finish em.config (.error .unwritableEvent) (.binaryE be) sink
    | .asciiE ae, .startFbx _ =>
      Emitter.finish em.config (.error .fbxAlreadyStarted) (.asciiE ae) sink
    | .asciiE ae, .endFbx =>
      (match aImpl.emit_end_fbx ae sink with
       | (r, ae2, sink2) => Emitter.finish em.config r (.asciiE ae2) sink2)
    | .asciiE ae, .startNode name properties =>
      (match aImpl.emit_start_node ae sink name properties with
       | (r, ae2, sink2) => Emitter.finish em.config r (.asciiE ae2) sink2)
    | .asciiE ae, .endNode =>
      (match aImpl.emit_end_node ae sink with
       | (r, ae2, sink2) => Emitter.finish em.config r (.asciiE ae2) sink2)
    | .asciiE ae, .comment text =>
      (match aImpl.emit_comment ae sink text with
       | (r, ae2, sink2) => Emitter.finish em.config r (.asciiE ae2) sink2)

/-- A concrete `AsciiImpl` instantiation for runs that never leave the
binary/initial states (its behaviour is irrelevant there). -/
def asciiUnused : AsciiImpl Unit :=
  ⟨(), fun a s _ => (.error .unwritableEvent, a, s),
    fun a s => (.error .unwritableEvent, a, s),
    fun a s _ _ => (.error .unwritableEvent, a, s),
    fun a s => (.error .unwritableEvent, a, s),
    fun a s _ => (.error .unwritableEvent, a, s)⟩

/-- Rust `EventWriter` run over a whole event list from a fresh default-config
emitter and an empty sink; `none` when any write does not return `Ok`. -/
def writeAll (deflate : List Nat → List Nat) (events : List FbxEvent) : Option Sink :=
  go (Emitter.new EmitterConfig.new) Sink.empty events
where
  go : Emitter Unit → Sink → List FbxEvent → Option Sink
    | _, sink, [] => some sink
    | em, sink, ev :: evs =>
      match Emitter.write deflate asciiUnused em sink ev with
      | .done (.ok ()) em2 sink2 => go em2 sink2 evs
      | _ => none

/-! ## Claim theorems -/

set_option maxRecDepth 4000

/-- C1: the write-then-read round trip fails. For the supported version 7400
and the event stream `StartFbx(Binary 7400), StartNode "A" [VecBool [true]],
EndNode, EndFbx` the writer succeeds, but the reader does not re-parse the
produced bytes to the same stream: the writer emits the `b` array as raw
bytes with no 12-byte array header, which the reader requires. -/
theorem roundtrip_vecbool_bug :
    (writeAll id ([.startFbx (.binary 7400), .startNode [65] [.vecBool [true]],
        .endNode, .endFbx] : List FbxEvent)).isSome = true
    ∧ (writeAll id ([.startFbx (.binary 7400), .startNode [65] [.vecBool [true]],
        .endNode, .endFbx] : List FbxEvent)).map
        (fun sk => readAll id 8 (Parser.new ⟨false⟩) sk.data)
      ≠ some (([.startFbx (.binary 7400), .startNode [65] [.vecBool [true]],
        .endNode, .endFbx] : List FbxEvent).map Except.ok) := by
  decide

/-- C2: the reader does not widen node-record header fields at version 7500.
Writing `StartFbx(Binary 7500), StartNode "A" [], EndNode, EndFbx` (the
writer emits u64 fields) and reading the bytes back, the second event is a
`StartNode` with an empty name: the reader read the header as
`u32,u32,u32,u8` regardless of the version. -/
theorem reader_header_width_bug :
    (writeAll id ([.startFbx (.binary 7500), .startNode [65] [],
        .endNode, .endFbx] : List FbxEvent)).map
        (fun sk => (readAll id 8 (Parser.new ⟨false⟩) sk.data)[1]?)
      = some (some (.ok (.startNode [] [])))
    ∧ (FbxEvent.startNode [] [] ≠ .startNode [65] []) := by
  decide

/-- C7: at the type-code byte `0x80` the decoder returns `UnexpectedValue`,
not `DataError` — the code's guard is `> 0x80` although its comment requires
ASCII (`≤ 0x7F`). Bytes above `0x80` give `DataError` at `pos - 1`, and
unrecognised ASCII codes (here `0x21`) give `UnexpectedValue`. -/
theorem type_code_boundary_bug :
    readProperty id [128] 0 = .error ⟨1, .unexpectedValue
      ("Unsupported type code appears in node property: type_code="
        ++ String.mk [Char.ofNat 128] ++ "(" ++ hexFmt 128 ++ ")")⟩
    ∧ readProperty id [129] 0 = .error ⟨0, .dataError
      ("Expected property type code (ASCII) but got " ++ hexFmt 129)⟩
    ∧ readProperty id [33] 0 = .error ⟨1, .unexpectedValue
      ("Unsupported type code appears in node property: type_code="
        ++ String.mk [Char.ofNat 33] ++ "(" ++ hexFmt 33 ++ ")")⟩ := by
  refine ⟨rfl, rfl, rfl⟩

/-- C10: the reader's first `next()` does not always return `Ok` or `Err`:
on the one-byte input `[0x0A]` the collected first line is empty and
`magic_next` indexes `first_line_bytes[0]`, which panics. -/
theorem first_next_panics_on_lf :
    Parser.next id 1 (Parser.new ⟨false⟩) [10] = .panicked := by
  rfl

/-- C8 counterexample: on the input `[0x58, 0x00]` (first line `"X"`,
NUL-terminated, not the magic) the first `next()` returns `InvalidMagic` at
byte position 2 — the bytes consumed — not at position 0 as claimed. -/
theorem invalid_magic_position_counterexample :
    Parser.next id 1 (Parser.new ⟨false⟩) [88, 0]
      = .done (.error ⟨2, .invalidMagic⟩)
          ⟨⟨false⟩, ⟨2, some (.error ⟨2, .invalidMagic⟩)⟩, .magic⟩ []
    ∧ (2 : Nat) ≠ 0 := by
  refine ⟨rfl, by decide⟩

/-- C5 counterexample: with config `fbx_version = Some 7400`, a first
`write(StartFbx(Binary 7500))` returns the `InvalidOption` version-mismatch
error through an early `return` that bypasses the latch and leaves the
emitter unchanged, and a second `write(StartFbx(Binary 7400))` then returns
`Ok` — not the same error again. -/
theorem write_error_latch_counterexample :
    (Emitter.write id asciiUnused ((Emitter.new ⟨true, some 7400⟩) : Emitter Unit)
        Sink.empty (.startFbx (.binary 7500))
      = .done (.error (.invalidOption
          "FBX version 7400 specified by emitter config, but 7500 is given for `StartFbx` event"))
          (Emitter.new ⟨true, some 7400⟩) Sink.empty)
    ∧ (match Emitter.write id asciiUnused ((Emitter.new ⟨true, some 7400⟩) : Emitter Unit)
          Sink.empty (.startFbx (.binary 7400)) with
       | .done r _ _ => r = .ok ()
       | _ => False) := by
  refine ⟨rfl, rfl⟩

/-- C9: `get_i32` succeeds exactly on Bool (as 0/1), I16 (value-preserving
widening) and I32, and is absent on I64 and every other variant; `get_f32`
succeeds on F32 and on F64 (with the narrowing cast applied); `get_binary` on
a String variant is absent unless `from_string` is set, in which case it is
exactly the base64 decode result (absent when decoding fails). -/
theorem property_conversion_safety :
    (∀ b : Bool, OwnedProperty.get_i32 (.boolP b) = some (if b then 1 else 0))
    ∧ (∀ v : Int, OwnedProperty.get_i32 (.i16P v) = some v)
    ∧ (∀ v : Int, OwnedProperty.get_i32 (.i32P v) = some v)
    ∧ (∀ v : Int, OwnedProperty.get_i32 (.i64P v) = none)
    ∧ (∀ v : Nat, OwnedProperty.get_i32 (.f32P v) = none)
    ∧ (∀ v : Nat, OwnedProperty.get_i32 (.f64P v) = none)
    ∧ (∀ v, OwnedProperty.get_i32 (.vecBool v) = none)
    ∧ (∀ v, OwnedProperty.get_i32 (.vecI32 v) = none)
    ∧ (∀ v, OwnedProperty.get_i32 (.vecI64 v) = none)
    ∧ (∀ v, OwnedProperty.get_i32 (.vecF32 v) = none)
    ∧ (∀ v, OwnedProperty.get_i32 (.vecF64 v) = none)
    ∧ (∀ v, OwnedProperty.get_i32 (.stringP v) = none)
    ∧ (∀ v, OwnedProperty.get_i32 (.binaryP v) = none)
    ∧ (∀ (narrow : Nat → Nat) (v : Nat), OwnedProperty.get_f32 narrow (.f32P v) = some v)
    ∧ (∀ (narrow : Nat → Nat) (v : Nat),
        OwnedProperty.get_f32 narrow (.f64P v) = some (narrow v))
    ∧ (∀ (b64 : List Nat → Option (List Nat)) (s : List Nat),
        OwnedProperty.get_binary b64 false (.stringP s) = none)
    ∧ (∀ (b64 : List Nat → Option (List Nat)) (s : List Nat),
        OwnedProperty.get_binary b64 true (.stringP s) = b64 s) :=
  ⟨fun _ => rfl, fun _ => rfl, fun _ => rfl, fun _ => rfl, fun _ => rfl,
   fun _ => rfl, fun _ => rfl, fun _ => rfl, fun _ => rfl, fun _ => rfl,
   fun _ => rfl, fun _ => rfl, fun _ => rfl, fun _ _ => rfl, fun _ _ => rfl,
   fun _ _ => rfl, fun _ _ => rfl⟩

/-- C3: on reading an all-zero node-record header, the binary parser pops an
expected end offset when the stack is non-empty — emitting `EndNode` when the
position after the header equals it and a `DataError` whose message starts
with "Node does not end at expected position" when it does not — and with an
empty stack emits `EndFbx`, consuming nothing beyond the header (the footer
is not parsed). -/
theorem null_record_handling (inflate : List Nat → List Nat) (ver : Nat)
    (stack : List Nat) (s : List Nat) (pos : Nat) (hdr : NodeRecordHeader)
    (s1 : List Nat) (pos1 : Nat)
    (hTop : stack.head? ≠ some pos)
    (hRead : NodeRecordHeader.read s pos = .ok (hdr, s1, pos1))
    (hNull : hdr.is_null_record = true) :
    (stack = [] → BinaryParser.next inflate ⟨ver, stack⟩ s pos
        = .ok (.endFbx, ⟨ver, []⟩, s1, pos1))
    ∧ (∀ expected stackRest, stack = expected :: stackRest →
        (pos1 = expected → BinaryParser.next inflate ⟨ver, stack⟩ s pos
            = .ok (.endNode, ⟨ver, stackRest⟩, s1, pos1))
        ∧ (pos1 ≠ expected →
            BinaryParser.next inflate ⟨ver, stack⟩ s pos
              = .error ⟨pos1, .dataError ("Node does not end at expected position (expected "
                  ++ toString expected ++ ", now at " ++ toString pos1 ++ ")")⟩
            ∧ ∃ suffix, ("Node does not end at expected position (expected "
                  ++ toString expected ++ ", now at " ++ toString pos1 ++ ")")
                = "Node does not end at expected position" ++ suffix)) := by
  constructor
  · intro hstack
    subst hstack
    simp [BinaryParser.next, hRead, hNull, hTop]
  · intro expected stackRest hstack
    subst hstack
    have hTop2 : expected ≠ pos := by
      intro hcontra
      exact hTop (by simp [hcontra])
    constructor
    · intro hEq
      simp [BinaryParser.next, hRead, hNull, hTop2, hEq]
    · intro hNe
      refine ⟨by simp [BinaryParser.next, hRead, hNull, hTop2, hNe], ?_⟩
      refine ⟨" (expected " ++ toString expected ++ ", now at " ++ toString pos1 ++ ")", ?_⟩
      have hsplit : "Node does not end at expected position (expected "
          = "Node does not end at expected position" ++ " (expected " := rfl
      rw [hsplit]
      simp only [String.append_assoc]

/-- C3 witness: a 13-zero-byte stream with an empty stack gives `EndFbx` and
leaves the trailing bytes unread. -/
theorem null_record_handling_witness :
    ((List.head? ([] : List Nat) ≠ some 0)
      ∧ NodeRecordHeader.read (List.replicate 13 0 ++ [7, 7]) 0 = .ok (⟨0, 0, 0, 0⟩, [7, 7], 13)
      ∧ (⟨0, 0, 0, 0⟩ : NodeRecordHeader).is_null_record = true)
    ∧ BinaryParser.next id ⟨7400, []⟩ (List.replicate 13 0 ++ [7, 7]) 0
        = .ok (.endFbx, ⟨7400, []⟩, [7, 7], 13) :=
  ⟨⟨by decide, by decide, by decide⟩,
    (null_record_handling id 7400 [] (List.replicate 13 0 ++ [7, 7]) 0 ⟨0, 0, 0, 0⟩ [7, 7] 13
      (by decide) (by decide) (by decide)).1 rfl⟩

/-- Latched `Parser::next`: with `final_result` set, the same result is
returned and nothing changes. -/
theorem parser_next_latched (inflate : List Nat → List Nat) (fuel : Nat)
    (p : Parser) (s : List Nat) (r : Except RError FbxEvent)
    (h : p.common.final_result = some r) :
    Parser.next inflate fuel p s = .done r p s := by
  unfold Parser.next
  rw [h]

/-- C6: once `next()` has returned `EndFbx` or an error, the parser has
latched that result and every subsequent `next()` — any input, any fuel —
returns it again unchanged. -/
theorem reader_terminal_latch (inflate : List Nat → List Nat) (fuel : Nat)
    (p : Parser) (s : List Nat) (r : Except RError FbxEvent)
    (p1 : Parser) (s1 : List Nat)
    (hRun : Parser.next inflate fuel p s = .done r p1 s1)
    (hTerm : isTerminal r = true) :
    p1.common.final_result = some r
    ∧ ∀ (fuel2 : Nat) (s2 : List Nat),
        Parser.next inflate fuel2 p1 s2 = .done r p1 s2 := by
  have hFinal : p1.common.final_result = some r := by
    unfold Parser.next at hRun
    cases hp : p.common.final_result with
    | some r0 =>
      simp only [hp] at hRun
      cases hRun
      exact hp
    | none =>
      simp only [hp] at hRun
      cases hl : Parser.loopNext inflate fuel p s with
      | panicked => simp only [hl] at hRun; simp at hRun
      | outOfFuel => simp only [hl] at hRun; simp at hRun
      | done r2 p2 s2 =>
        simp only [hl] at hRun
        by_cases ht : isTerminal r2 = true
        · rw [if_pos ht] at hRun
          cases hRun
          rfl
        · rw [if_neg ht] at hRun
          cases hRun
          exact absurd hTerm ht
  exact ⟨hFinal, fun fuel2 s2 => parser_next_latched inflate fuel2 p1 s2 r hFinal⟩

/-- C6 witness: an empty input errors at once; the error is latched and
repeated. -/
theorem reader_terminal_latch_witness :
    (Parser.next id 1 (Parser.new ⟨false⟩) []
        = .done (.error ⟨0, .io⟩) ⟨⟨false⟩, ⟨0, some (.error ⟨0, .io⟩)⟩, .magic⟩ []
      ∧ isTerminal (.error (⟨0, .io⟩ : RError)) = true)
    ∧ (⟨⟨false⟩, ⟨0, some (.error ⟨0, .io⟩)⟩, .magic⟩ : Parser).common.final_result
        = some (.error ⟨0, .io⟩)
    ∧ ∀ (fuel2 : Nat) (s2 : List Nat),
        Parser.next id fuel2 ⟨⟨false⟩, ⟨0, some (.error ⟨0, .io⟩)⟩, .magic⟩ s2
          = .done (.error ⟨0, .io⟩) ⟨⟨false⟩, ⟨0, some (.error ⟨0, .io⟩)⟩, .magic⟩ s2 := by
  have h := reader_terminal_latch id 1 (Parser.new ⟨false⟩) [] (.error ⟨0, .io⟩)
    ⟨⟨false⟩, ⟨0, some (.error ⟨0, .io⟩)⟩, .magic⟩ [] (by decide) (by decide)
  exact ⟨⟨by decide, by decide⟩, h.1, h.2⟩

/-- The first-line loop on a NUL-terminated line with no terminator bytes
inside: collects the line and advances past the NUL. -/
theorem readFirstLine_spec (line rest : List Nat) (pos : Nat)
    (h : ∀ b ∈ line, b ≠ 0 ∧ b ≠ 10) :
    readFirstLine (line ++ 0 :: rest) pos = .ok (line, 0, rest, pos + line.length + 1) := by
  induction line generalizing pos with
  | nil => simp [readFirstLine]
  | cons b bs ih =>
    have hb := h b (by simp)
    have hrec := ih (pos + 1) (fun x hx => h x (by simp [hx]))
    simp [readFirstLine, hb.1, hb.2, hrec]
    omega

/-- C8 (amended): a first line terminated by NUL whose bytes are not the
magic gives `InvalidMagic`, but at the byte position just past the NUL —
`line.length + 1` bytes consumed — not at position 0. -/
theorem invalid_magic_position (cfg : ParserConfig) (inflate : List Nat → List Nat)
    (fuel : Nat) (line rest : List Nat)
    (hNoTerm : ∀ b ∈ line, b ≠ 0 ∧ b ≠ 10)
    (hNotMagic : line ≠ magicBytes) :
    Parser.next inflate (fuel + 1) (Parser.new cfg) (line ++ 0 :: rest)
      = .done (.error ⟨line.length + 1, .invalidMagic⟩)
          ⟨cfg, ⟨line.length + 1, some (.error ⟨line.length + 1, .invalidMagic⟩)⟩, .magic⟩
          rest := by
  have hline := readFirstLine_spec line rest 0 hNoTerm
  unfold Parser.next Parser.loopNext Parser.subStep magicNext
  simp [Parser.new, hline, hNotMagic, isTerminal]

/-- C8 witness: the line `"X"` NUL-terminated, on the default state; the
error is reported at position 2. -/
theorem invalid_magic_position_witness :
    ((∀ b ∈ ([88] : List Nat), b ≠ 0 ∧ b ≠ 10) ∧ ([88] : List Nat) ≠ magicBytes)
    ∧ Parser.next id 1 (Parser.new ⟨false⟩) ([88] ++ 0 :: [])
        = .done (.error ⟨2, .invalidMagic⟩)
            ⟨⟨false⟩, ⟨2, some (.error ⟨2, .invalidMagic⟩)⟩, .magic⟩ [] :=
  ⟨⟨by decide, by decide⟩,
    invalid_magic_position ⟨false⟩ id 0 [88] [] (by decide) (by decide)⟩

/-- The one early-`return` branch of `Emitter::write`: Initial state,
`StartFbx(Binary ver)` with a configured version present and different. -/
def versionMismatchBranch {σ : Type} (em : Emitter σ) (event : FbxEvent) : Bool :=
  match em.state, event, em.config.fbx_version with
  | .initial, .startFbx (.binary ver), some config_fbx_ver => ver != config_fbx_ver
  | _, _, _ => false

/-- Latched `Emitter::write`: with `final_result` set, the same result is
returned and nothing changes. -/
theorem emitter_write_latched {σ : Type} (deflate : List Nat → List Nat)
    (aImpl : AsciiImpl σ) (em : Emitter σ) (sink : Sink) (event : FbxEvent)
    (r : Except WError Unit) (h : em.final_result = some r) :
    Emitter.write deflate aImpl em sink event = .done r em sink := by
  unfold Emitter.write
  rw [h]

/-- Rust `Emitter.finish` latches exactly the errors it is given. -/
theorem emitter_finish_latch {σ : Type} (config : EmitterConfig)
    (r : Except WError Unit) (st : EmitterState σ) (sink : Sink)
    (err : WError) (em1 : Emitter σ) (sink1 : Sink)
    (h : Emitter.finish config r st sink = .done (.error err) em1 sink1) :
    em1.final_result = some (.error err) := by
  unfold Emitter.finish at h
  cases r with
  | error e => cases h; rfl
  | ok u => cases u; cases h

/-- C5 (amended): a latched write error is repeated on every subsequent
`write`, whatever the event; every error latches, except the `InvalidOption`
version-mismatch error returned early from the Initial state on
`StartFbx(Binary v)` when the configured `fbx_version` differs from `v`,
which leaves the emitter unlatched. -/
theorem write_error_latch {σ : Type} (deflate : List Nat → List Nat)
    (aImpl : AsciiImpl σ) (em : Emitter σ) (sink : Sink) (event : FbxEvent) :
    (∀ r0, em.final_result = some r0 →
      Emitter.write deflate aImpl em sink event = .done r0 em sink)
    ∧ (∀ err em1 sink1,
        Emitter.write deflate aImpl em sink event = .done (.error err) em1 sink1 →
        versionMismatchBranch em event = false →
        em1.final_result = some (.error err))
    ∧ (∀ err em1 sink1,
        Emitter.write deflate aImpl em sink event = .done (.error err) em1 sink1 →
        versionMismatchBranch em event = false →
        ∀ (sink2 : Sink) (event2 : FbxEvent),
          Emitter.write deflate aImpl em1 sink2 event2 = .done (.error err) em1 sink2) := by
  have part1 : ∀ r0, em.final_result = some r0 →
      Emitter.write deflate aImpl em sink event = .done r0 em sink :=
    fun r0 h => emitter_write_latched deflate aImpl em sink event r0 h
  have part2 : ∀ err em1 sink1,
      Emitter.write deflate aImpl em sink event = .done (.error err) em1 sink1 →
      versionMismatchBranch em event = false →
      em1.final_result = some (.error err) := by
    intro err em1 sink1 hw hbr
    unfold Emitter.write at hw
    cases hf : em.final_result with
    | some r0 =>
      simp only [hf] at hw
      cases hw
      exact hf
    | none =>
      simp only [hf] at hw
      cases hst : em.state with
      | initial =>
        cases event with
        | startFbx fmt =>
          cases fmt with
          | binary ver =>
            simp only [hst] at hw
            cases hv : em.config.fbx_version with
            | some config_fbx_ver =>
              simp only [hv] at hw
              by_cases hne : ver ≠ config_fbx_ver
              · exfalso
                have hvm : versionMismatchBranch em (.startFbx (.binary ver)) = true := by
                  simp only [versionMismatchBranch, hst, hv, bne_iff_ne, ne_eq,
                    decide_eq_true_eq]
                  exact hne
                rw [hbr] at hvm
                exact Bool.false_ne_true hvm
              · rw [if_neg (by simpa using hne)] at hw
                unfold Emitter.startBinary at hw
                exact emitter_finish_latch _ _ _ _ _ _ _ hw
            | none =>
              simp only [hv] at hw
              unfold Emitter.startBinary at hw
              exact emitter_finish_latch _ _ _ _ _ _ _ hw
          | ascii =>
            simp only [hst] at hw
            cases hv : em.config.fbx_version with
            | some ver =>
              simp only [hv] at hw
              exact emitter_finish_latch _ _ _ _ _ _ _ hw
            | none =>
              simp only [hv] at hw
              exact emitter_finish_latch _ _ _ _ _ _ _ hw
        | endFbx =>
          simp only [hst] at hw
          exact emitter_finish_latch _ _ _ _ _ _ _ hw
        | startNode name properties =>
          simp only [hst] at hw
          exact emitter_finish_latch _ _ _ _ _ _ _ hw
        | endNode =>
          simp only [hst] at hw
          exact emitter_finish_latch _ _ _ _ _ _ _ hw
        | comment text =>
          simp only [hst] at hw
          exact emitter_finish_latch _ _ _ _ _ _ _ hw
      | binaryE be =>
        cases event with
        | startFbx fmt =>
          simp only [hst] at hw
          exact emitter_finish_latch _ _ _ _ _ _ _ hw
        | endFbx =>
          simp only [hst] at hw
          exact emitter_finish_latch _ _ _ _ _ _ _ hw
        | startNode name properties =>
          simp only [hst] at hw
          exact emitter_finish_latch _ _ _ _ _ _ _ hw
        | endNode =>
          simp only [hst] at hw
          cases hee : be.emit_end_node sink with
          | panicked =>
            simp only [hee] at hw
            cases hw
          | out r be2 sink2 =>
            simp only [hee] at hw
            exact emitter_finish_latch _ _ _ _ _ _ _ hw
        | comment text =>
          simp only [hst] at hw
          by_cases hmin : em.config.ignore_minor_errors = true
          · rw [if_pos hmin] at hw
            cases hw
          · rw [if_neg hmin] at hw
            exact emitter_finish_latch _ _ _ _ _ _ _ hw
      | asciiE ae =>
        cases event with
        | startFbx fmt =>
          simp only [hst] at hw
          exact emitter_finish_latch _ _ _ _ _ _ _ hw
        | endFbx =>
          simp only [hst] at hw
          exact emitter_finish_latch _ _ _ _ _ _ _ hw
        | startNode name properties =>
          simp only [hst] at hw
          exact emitter_finish_latch _ _ _ _ _ _ _ hw
        | endNode =>
          simp only [hst] at hw
          exact emitter_finish_latch _ _ _ _ _ _ _ hw
        | comment text =>
          simp only [hst] at hw
          exact emitter_finish_latch _ _ _ _ _ _ _ hw
  refine ⟨part1, part2, ?_⟩
  intro err em1 sink1 hw hbr sink2 event2
  exact emitter_write_latched deflate aImpl em1 sink2 event2 (.error err)
    (part2 err em1 sink1 hw hbr)

/-! ## Node trees and the emitter run (for the null-record claim)

A written node is a name, a property list and a forest of child nodes; its
event sequence is `StartNode`, the children's events, `EndNode`. The run
below folds `emit_start_node`/`emit_end_node` over such a sequence, stopping
(`none`) on any error or panic. -/

mutual
inductive WNode where
  | node (name : List Nat) (props : List OwnedProperty) (children : WForest)
inductive WForest where
  | nil
  | cons (t : WNode) (ts : WForest)
end

/-- Whether a forest has no nodes. -/
def WForest.isEmpty : WForest → Bool
  | .nil => true
  | .cons _ _ => false

/-- Node-level events (the writer's `StartNode`/`EndNode` fragment). -/
inductive NEvent where
  | startN (name : List Nat) (props : List OwnedProperty)
  | endN
  deriving DecidableEq, Repr

mutual
/-- The event sequence of one node. -/
def WNode.events : WNode → List NEvent
  | .node name props children => .startN name props :: (WForest.events children ++ [.endN])
/-- The event sequence of a forest, in order. -/
def WForest.events : WForest → List NEvent
  | .nil => []
  | .cons t ts => WNode.events t ++ WForest.events ts
end

/-- Fold the binary emitter over node events; `none` on error or panic. -/
def runNode (deflate : List Nat → List Nat) :
    BinaryEmitter → Sink → List NEvent → Option (BinaryEmitter × Sink)
  | be, sink, [] => some (be, sink)
  | be, sink, .startN name props :: evs =>
    (match be.emit_start_node deflate sink name props with
     | (.ok (), be1, sink1) => runNode deflate be1 sink1 evs
     | _ => none)
  | be, sink, .endN :: evs =>
    (match be.emit_end_node sink with
     | .out (.ok ()) be1 sink1 => runNode deflate be1 sink1 evs
     | _ => none)

theorem runNode_append (deflate : List Nat → List Nat) (l1 l2 : List NEvent) :
    ∀ be sink, runNode deflate be sink (l1 ++ l2)
      = (runNode deflate be sink l1).bind (fun x => runNode deflate x.1 x.2 l2) := by
  induction l1 with
  | nil => intro be sink; simp [runNode]
  | cons e rest ih =>
    intro be sink
    cases e with
    | startN name props =>
      simp only [List.cons_append, runNode]
      split
      · exact ih _ _
      · simp
    | endN =>
      simp only [List.cons_append, runNode]
      split
      · exact ih _ _
      · simp

/-- Rust `mapHeadTrue` is idempotent. -/
theorem mapHeadTrue_idem (l : List Bool) : mapHeadTrue (mapHeadTrue l) = mapHeadTrue l := by
  cases l <;> rfl

/-- A write whose offset is the data's end appends. -/
theorem listOverwrite_append (data bs : List Nat) :
    listOverwrite data data.length bs = data ++ bs := by
  simp [listOverwrite]

/-- Rust `emit_start_node` always pushes the entry offset and the
`properties.is_empty()` flag (marking the parent's flag true), whatever the
result; version and `pos` are untouched. -/
theorem emit_start_node_state (deflate : List Nat → List Nat) (be : BinaryEmitter)
    (sink : Sink) (name : List Nat) (properties : List OwnedProperty)
    (r : Except WError Unit) (be1 : BinaryEmitter) (sink1 : Sink)
    (h : be.emit_start_node deflate sink name properties = (r, be1, sink1)) :
    be1.version = be.version ∧ be1.pos = be.pos
    ∧ be1.null_record_necessities
        = properties.isEmpty :: mapHeadTrue be.null_record_necessities
    ∧ be1.end_offset_pos_stack = sink.pos :: be.end_offset_pos_stack := by
  have hbe1 := congrArg (fun t => t.2.1) h
  unfold BinaryEmitter.emit_start_node at hbe1
  simp only at hbe1
  split at hbe1 <;> (try split at hbe1) <;> (try split at hbe1) <;>
    (try split at hbe1) <;> (subst hbe1; simp)

/-- Rust `emit_end_node` with an `Ok` result pops both stacks and touches neither
the version nor `pos`. -/
theorem emit_end_node_ok_state (be : BinaryEmitter) (sink : Sink)
    (be2 : BinaryEmitter) (sink2 : Sink)
    (h : be.emit_end_node sink = .out (.ok ()) be2 sink2) :
    be2.version = be.version ∧ be2.pos = be.pos
    ∧ be2.null_record_necessities = be.null_record_necessities.tail
    ∧ be2.end_offset_pos_stack = be.end_offset_pos_stack.tail := by
  unfold BinaryEmitter.emit_end_node at h
  cases hf : be.null_record_necessities with
  | nil => simp only [hf] at h; simp at h
  | cons required restFlags =>
    simp only [hf] at h
    cases ho : be.end_offset_pos_stack with
    | nil => simp only [ho] at h; cases h
    | cons p restOffs =>
      simp only [ho] at h
      split at h <;> (try split at h) <;> (try split at h) <;>
        injection h with h1 h2 h3 <;>
        (try (cases h1)) <;>
        (subst h2; simp [hf, ho])

theorem optionBind_some {α β : Type} (a : α) (f : α → Option β) :
    (some a).bind f = f a := rfl

mutual

/-- Emitting one whole node from any state marks the top of the flags stack
(the parent now has a child) and restores the offset stack; version and `pos`
are untouched. -/
theorem runNode_node_stacks (deflate : List Nat → List Nat) (t : WNode)
    (be : BinaryEmitter) (sink : Sink) (be2 : BinaryEmitter) (sink2 : Sink)
    (h : runNode deflate be sink (WNode.events t) = some (be2, sink2)) :
    be2.version = be.version ∧ be2.pos = be.pos
    ∧ be2.null_record_necessities = mapHeadTrue be.null_record_necessities
    ∧ be2.end_offset_pos_stack = be.end_offset_pos_stack :=
  match t, h with
  | .node name props children, h => by
    rw [WNode.events] at h
    simp only [runNode] at h
    split at h
    next be1 sink1 hstart =>
      rw [runNode_append] at h
      cases hm : runNode deflate be1 sink1 (WForest.events children) with
      | none => rw [hm] at h; simp at h
      | some x =>
        obtain ⟨beM, sinkM⟩ := x
        rw [hm] at h
        rw [optionBind_some] at h
        simp only [runNode] at h
        split at h
        next beE sinkE hend =>
          simp only [runNode, Option.some.injEq, Prod.mk.injEq] at h
          obtain ⟨hbe, _⟩ := h
          subst hbe
          have hs := emit_start_node_state deflate be sink name props _ be1 sink1 hstart
          have hfor := runNode_forest_stacks deflate children be1 sink1 beM sinkM hm
          have hendst := emit_end_node_ok_state beM sinkM beE sinkE hend
          refine ⟨by rw [hendst.1, hfor.1, hs.1],
                  by rw [hendst.2.1, hfor.2.1, hs.2.1], ?_, ?_⟩
          · rw [hendst.2.2.1]
            cases hc : WForest.isEmpty children with
            | true =>
              rw [hfor.2.2.1, hc]
              simp [hs.2.2.1]
            | false =>
              rw [hfor.2.2.1, hc]
              simp [hs.2.2.1, mapHeadTrue]
          · rw [hendst.2.2.2, hfor.2.2.2, hs.2.2.2]
            rfl
        next hne => exact absurd h (by simp)
    next hne => exact absurd h (by simp)

/-- Emitting a forest: an empty forest changes nothing; a non-empty one marks
the top flag; offsets, version and `pos` are restored. -/
theorem runNode_forest_stacks (deflate : List Nat → List Nat) (ts : WForest)
    (be : BinaryEmitter) (sink : Sink) (be2 : BinaryEmitter) (sink2 : Sink)
    (h : runNode deflate be sink (WForest.events ts) = some (be2, sink2)) :
    be2.version = be.version ∧ be2.pos = be.pos
    ∧ be2.null_record_necessities
        = (if WForest.isEmpty ts then be.null_record_necessities
           else mapHeadTrue be.null_record_necessities)
    ∧ be2.end_offset_pos_stack = be.end_offset_pos_stack :=
  match ts, h with
  | .nil, h => by
    simp only [WForest.events, runNode, Option.some.injEq, Prod.mk.injEq] at h
    obtain ⟨hbe, _⟩ := h
    subst hbe
    simp [WForest.isEmpty]
  | .cons t rest, h => by
    rw [WForest.events] at h
    rw [runNode_append] at h
    cases hm : runNode deflate be sink (WNode.events t) with
    | none => rw [hm] at h; simp at h
    | some x =>
      obtain ⟨beM, sinkM⟩ := x
      rw [hm] at h
      rw [optionBind_some] at h
      have h1 := runNode_node_stacks deflate t be sink beM sinkM hm
      have h2 := runNode_forest_stacks deflate rest beM sinkM be2 sink2 h
      refine ⟨by rw [h2.1, h1.1], by rw [h2.2.1, h1.2.1], ?_,
              by rw [h2.2.2.2, h1.2.2.2]⟩
      rw [h2.2.2.1, h1.2.2.1]
      cases hre : WForest.isEmpty rest with
      | true => simp [WForest.isEmpty]
      | false => simp [WForest.isEmpty, mapHeadTrue_idem]

end

/-- C4: for a node written at version `v` (its `StartNode`, then all its
children, from any emitter state), the `EndNode` step appends a zero-filled
null-record terminator exactly when the node has at least one child or has
zero properties — 13 zero bytes when `v < 7500` and 25 when `v ≥ 7500` —
before fixing up the node's `end_offset` in place. -/
theorem null_record_termination
    (deflate : List Nat → List Nat) (v : Nat) (name : List Nat)
    (properties : List OwnedProperty) (children : WForest)
    (be be1 be2 : BinaryEmitter) (sink sink1 sink2 : Sink)
    (hver : be.version = v)
    (hStart : be.emit_start_node deflate sink name properties = (.ok (), be1, sink1))
    (hChildren : runNode deflate be1 sink1 (WForest.events children) = some (be2, sink2))
    (hPosEnd : sink2.pos = sink2.data.length)
    (hSmall : sink2.data.length + 25 ≤ u32Max) :
    be2.emit_end_node sink2
      = .out (.ok ())
          ⟨v, be.pos, be.end_offset_pos_stack, mapHeadTrue be.null_record_necessities⟩
          ⟨listOverwrite
              (sink2.data ++ (if !(WForest.isEmpty children) || properties.isEmpty then
                  List.replicate (if v < 7500 then 13 else 25) 0 else []))
              sink.pos
              (natToLE (if v < 7500 then 4 else 8)
                (sink2.data.length
                  + (if !(WForest.isEmpty children) || properties.isEmpty then
                      (if v < 7500 then 13 else 25) else 0))),
            sink2.data.length
              + (if !(WForest.isEmpty children) || properties.isEmpty then
                  (if v < 7500 then 13 else 25) else 0)⟩ := by
  have hs := emit_start_node_state deflate be sink name properties _ be1 sink1 hStart
  have hfor := runNode_forest_stacks deflate children be1 sink1 be2 sink2 hChildren
  have hv2 : be2.version = v := by rw [hfor.1, hs.1, hver]
  have hp2 : be2.pos = be.pos := by rw [hfor.2.1, hs.2.1]
  have ho2 : be2.end_offset_pos_stack = sink.pos :: be.end_offset_pos_stack := by
    rw [hfor.2.2.2, hs.2.2.2]
  have hn2 : be2.null_record_necessities
      = (!(WForest.isEmpty children) || properties.isEmpty)
        :: mapHeadTrue be.null_record_necessities := by
    rw [hfor.2.2.1]
    cases hc : WForest.isEmpty children with
    | true => simp [hs.2.2.1]
    | false => simp [hs.2.2.1, mapHeadTrue]
  obtain ⟨ver2, pos2, offs2, flags2⟩ := be2
  simp only at hv2 hp2 ho2 hn2
  subst hv2 hp2 ho2 hn2
  have hck : ¬ (u32Max < sink2.data.length + 13) := by omega
  have hck0 : ¬ (u32Max < sink2.data.length) := by omega
  unfold BinaryEmitter.emit_end_node
  cases hflag : (!(WForest.isEmpty children) || properties.isEmpty) with
  | true =>
    by_cases hvlt : ver2 < 7500
    · simp [Sink.write, Sink.seekTo, hPosEnd, listOverwrite_append, hvlt, hck]
    · simp [Sink.write, Sink.seekTo, hPosEnd, listOverwrite_append, hvlt]
  | false =>
    by_cases hvlt : ver2 < 7500
    · simp [Sink.write, Sink.seekTo, hPosEnd, listOverwrite_append, hvlt, hck0]
    · simp [Sink.write, Sink.seekTo, hPosEnd, listOverwrite_append, hvlt]

/-- C4 witness: version 7400, a node `"A"` with no properties and one empty
child `"B"`; the child's flag marks the parent, and the parent's `EndNode`
appends a 13-zero-byte null record before the `end_offset` fixup. -/
theorem null_record_termination_witness :
    ((BinaryEmitter.new 7400).version = 7400
      ∧ (BinaryEmitter.new 7400).emit_start_node id Sink.empty [65] []
          = (.ok (), ⟨7400, 0, [0], [true]⟩,
              ⟨[222, 173, 190, 239, 0, 0, 0, 0, 0, 0, 0, 0, 1, 65], 14⟩)
      ∧ runNode id ⟨7400, 0, [0], [true]⟩
          ⟨[222, 173, 190, 239, 0, 0, 0, 0, 0, 0, 0, 0, 1, 65], 14⟩
          (WForest.events (.cons (.node [66] [] .nil) .nil))
          = some (⟨7400, 0, [0], [true]⟩,
              ⟨[222, 173, 190, 239, 0, 0, 0, 0, 0, 0, 0, 0, 1, 65, 41, 0, 0, 0, 0, 0, 0,
                0, 0, 0, 0, 0, 1, 66, 0, 0, 0, 0, 0, 0, 0, 0, 0, 0, 0, 0, 0], 41⟩)
      ∧ (41 : Nat) = ([222, 173, 190, 239, 0, 0, 0, 0, 0, 0, 0, 0, 1, 65, 41, 0, 0, 0, 0,
            0, 0, 0, 0, 0, 0, 0, 1, 66, 0, 0, 0, 0, 0, 0, 0, 0, 0, 0, 0, 0, 0] : List Nat).length
      ∧ ([222, 173, 190, 239, 0, 0, 0, 0, 0, 0, 0, 0, 1, 65, 41, 0, 0, 0, 0, 0, 0, 0, 0,
            0, 0, 0, 1, 66, 0, 0, 0, 0, 0, 0, 0, 0, 0, 0, 0, 0, 0] : List Nat).length + 25
          ≤ u32Max)
    ∧ (⟨7400, 0, [0], [true]⟩ : BinaryEmitter).emit_end_node
        ⟨[222, 173, 190, 239, 0, 0, 0, 0, 0, 0, 0, 0, 1, 65, 41, 0, 0, 0, 0, 0, 0, 0, 0,
          0, 0, 0, 1, 66, 0, 0, 0, 0, 0, 0, 0, 0, 0, 0, 0, 0, 0], 41⟩
        = .out (.ok ()) ⟨7400, 0, [], []⟩
            ⟨[54, 0, 0, 0, 0, 0, 0, 0, 0, 0, 0, 0, 1, 65, 41, 0, 0, 0, 0, 0, 0, 0, 0, 0,
              0, 0, 1, 66, 0, 0, 0, 0, 0, 0, 0, 0, 0, 0, 0, 0, 0, 0, 0, 0, 0, 0, 0, 0,
              0, 0, 0, 0, 0, 0], 54⟩ := by
  refine ⟨⟨by decide, by decide, by decide, by decide, by decide⟩, ?_⟩
  have h := null_record_termination id 7400 [65] [] (.cons (.node [66] [] .nil) .nil)
    (BinaryEmitter.new 7400) ⟨7400, 0, [0], [true]⟩ ⟨7400, 0, [0], [true]⟩
    Sink.empty ⟨[222, 173, 190, 239, 0, 0, 0, 0, 0, 0, 0, 0, 1, 65], 14⟩
    ⟨[222, 173, 190, 239, 0, 0, 0, 0, 0, 0, 0, 0, 1, 65, 41, 0, 0, 0, 0, 0, 0, 0, 0, 0,
      0, 0, 1, 66, 0, 0, 0, 0, 0, 0, 0, 0, 0, 0, 0, 0, 0], 41⟩
    (by decide) (by decide) (by decide) (by decide) (by decide)
  exact h.trans (by decide)

end FbxDirect
